import Mathlib

/-!
Verification development for `orkes-io/go-httpfixture` (file `httpfixture.go`,
current revision). Go strings are embedded as `List Char`, Go byte slices as
`List Nat` (byte values), the `testing.T` failure sink as an explicit record,
and `*http.Request` mutation (assertions may reassign `req.Body`) as state
passing. Stateful stdlib pieces (`http.NotFound`, `io.TeeReader`,
`bytes.Buffer`) are embedded by their documented observable behaviour.
-/

namespace Httpfixture

/-- Go strings (routes, methods, error messages) as lists of characters. -/
abbrev GoStr := List Char

/-- Go `[]byte` as lists of byte values. -/
abbrev GoBytes := List Nat

/-- Convert a Lean string literal to the `GoStr` embedding. -/
def strL (s : String) : GoStr := s.toList

/-- Convert an ASCII string literal to its byte-slice embedding
(Go `[]byte(s)`; for ASCII content the codepoint is the byte). -/
def strBytes (s : String) : GoBytes := s.toList.map Char.toNat

/-- Incoming `*http.Request`, restricted to the fields the package reads:
`Method`, `URL.Path` (`urlPath = none` models a nil `req.URL`), `Header`,
the readable content of `Body`, and `ContentLength`. -/
structure Request where
  method : GoStr
  urlPath : Option GoStr
  header : List (GoStr × List GoStr)
  body : GoBytes
  contentLength : Nat
deriving DecidableEq

/-- `*http.Response`, restricted to the fields the package sets or reads:
`StatusCode`, `Header`, and the readable content of `Body`. -/
structure Response where
  statusCode : Int
  header : List (GoStr × List GoStr)
  body : GoBytes
deriving DecidableEq

/-- The `*testing.T` failure sink: the failed flag and the logged lines. -/
structure TT where
  failed : Bool
  log : List GoStr
deriving DecidableEq

/-- Go `type assert func(req *http.Request) error`. `AssertBodyContainsBytes`
also reassigns `req.Body`, so the embedding passes the request through:
an assertion returns the possibly-updated request and `some msg` on failure. -/
abbrev Assert := Request → Request × Option GoStr

/-- `standardizePath` (httpfixture.go:463-471): empty path becomes "/",
a path already starting with '/' is returned unchanged, otherwise '/' is
prepended (`fmt.Sprintf("/%s", path)`). -/
def standardizePath : GoStr → GoStr
  | [] => ['/']
  | c :: rest => if c = '/' then c :: rest else '/' :: c :: rest

/-- `routesKey` (httpfixture.go:459-461): `fmt.Sprintf("%s:%s", method, route)`. -/
def routesKey (method route : GoStr) : GoStr := method ++ strL ":" ++ route

/-- `baseFixture` (httpfixture.go:346-351). -/
structure BaseFixture where
  route : GoStr
  method : GoStr
  responseCode : Int
  assertions : List Assert

/-- `FixtureOpt` (httpfixture.go:214): a mutation of the base fixture. -/
def FixtureOpt := BaseFixture → BaseFixture

/-- `base` (httpfixture.go:279-289): build the base fixture with the
standardized route, then apply each option in order. -/
def base (route method : GoStr) (responseCode : Int) (opts : List FixtureOpt) :
    BaseFixture :=
  opts.foldl (fun bf opt => opt bf)
    { route := standardizePath route, method := method,
      responseCode := responseCode, assertions := [] }

/-- `memFixture` (httpfixture.go:331-335): a fixture whose response body is
held in memory. -/
structure MemFixture where
  body : GoBytes
  base : BaseFixture

/-- `Bytes` (httpfixture.go:236-241). -/
def Bytes (route method : GoStr) (responseCode : Int) (body : GoBytes)
    (opts : List FixtureOpt) : MemFixture :=
  { body := body, base := base route method responseCode opts }

/-- `strings.EqualFold`, embedded as case-insensitive character comparison. -/
def eqFold (a b : GoStr) : Bool :=
  a.map Char.toLower == b.map Char.toLower

/-- `req.Header.Values(key)`, embedded as association-list lookup. -/
def headerValues (h : List (GoStr × List GoStr)) (key : GoStr) : List GoStr :=
  match h with
  | [] => []
  | (k, vs) :: rest => if k = key then vs else headerValues rest key

/-- The assertion closure built by `AssertHeaderMatches`
(httpfixture.go:292-304). -/
def assertHeaderMatchesCheck (key value : GoStr) : Assert := fun req =>
  (req,
    if (headerValues req.header key).any (fun v => eqFold v value) then none
    else some (strL "could not find headers matching"))

/-- `AssertHeaderMatches` (httpfixture.go:292-304). -/
def AssertHeaderMatches (key value : GoStr) : FixtureOpt := fun f =>
  { f with assertions := f.assertions ++ [assertHeaderMatchesCheck key value] }

/-- `bytes.Contains(s, b)`: b occurs as a contiguous subslice of s
(the empty slice is contained in everything). -/
def bytesContains : GoBytes → GoBytes → Bool
  | [], b => b.isEmpty
  | s@(_ :: rest), b => b.isPrefixOf s || bytesContains rest b

/-- The assertion closure built by `AssertBodyContainsBytes`
(httpfixture.go:313-329). Line by line:
`body := bytes.NewBuffer(make([]byte, req.ContentLength))` creates a buffer
whose initial readable content is `ContentLength` zero bytes;
`r := io.TeeReader(req.Body, body)` tees the old body into that buffer;
`req.Body = io.NopCloser(body)` makes the buffer the new body;
`bodyBytes, _ := io.ReadAll(r)` reads the original bytes (appending them to
the buffer after its zero prefix); the in-memory read never fails;
then `bytes.Contains(bodyBytes, b)` decides the outcome. -/
def assertBodyContainsBytesCheck (b : GoBytes) : Assert := fun req =>
  let buffered := List.replicate req.contentLength 0
  let bodyBytes := req.body
  ({ req with body := buffered ++ bodyBytes },
    if bytesContains bodyBytes b then none
    else some (strL "body did not contain expected bytes"))

/-- `AssertBodyContainsBytes` (httpfixture.go:313-329). -/
def AssertBodyContainsBytes (b : GoBytes) : FixtureOpt := fun f =>
  { f with assertions := f.assertions ++ [assertBodyContainsBytesCheck b] }

/-- `AssertBodyContains` (httpfixture.go:307-309). -/
def AssertBodyContains (s : String) : FixtureOpt :=
  AssertBodyContainsBytes (strBytes s)

/-- The loop of `assertAll` (httpfixture.go:355-362): run each assertion in
order against the (threaded) request, accumulating the failures with
`errs = errors.Join(errs, err)` — `errors.Join` keeps non-nil errors in
order, embedded as list append. -/
def assertLoop : List Assert → Request → List GoStr → Request × List GoStr
  | [], req, errs => (req, errs)
  | a :: rest, req, errs =>
    match a req with
    | (req2, none) => assertLoop rest req2 errs
    | (req2, some e) => assertLoop rest req2 (errs ++ [e])

/-- `errors.Join(...)::Error()`: the collected messages joined by newlines. -/
def joinErrs (errs : List GoStr) : GoStr :=
  List.intercalate (strL "\n") errs

/-- `baseFixture.assertAll` (httpfixture.go:355-368): run the loop; if any
assertion failed, log `"request failed assertions: <joined>"` and call
`t.Fail()`; either way control returns to the caller. -/
def assertAll (bf : BaseFixture) (t : TT) (req : Request) : TT × Request :=
  match assertLoop bf.assertions req [] with
  | (req2, errs) =>
    if errs.isEmpty then (t, req2)
    else
      ({ failed := true,
         log := t.log ++ [strL "request failed assertions: " ++ joinErrs errs] },
       req2)

/-- `baseFixture.response` (httpfixture.go:371-375): a response carrying only
the configured status code (`Header` and `Body` zero-valued). -/
def BaseFixture.response (bf : BaseFixture) : Response :=
  { statusCode := bf.responseCode, header := [], body := [] }

/-- `memFixture.Run` (httpfixture.go:338-344): run the assertions (failures
are recorded on `t`, not fatal), then return the configured response with
the in-memory body (`io.NopCloser(bytes.NewBuffer(s.body))`). -/
def MemFixture.Run (s : MemFixture) (t : TT) (req : Request) :
    (TT × Request) × Response :=
  match assertAll s.base t req with
  | (t2, req2) => ((t2, req2), { s.base.response with body := s.body })

/-- Go map assignment `m[k] = v`: replace the binding if the key is present,
otherwise add it. -/
def mapInsert : List (GoStr × MemFixture) → GoStr → MemFixture →
    List (GoStr × MemFixture)
  | [], k, v => [(k, v)]
  | (k', v') :: rest, k, v =>
    if k' = k then (k, v) :: rest else (k', v') :: mapInsert rest k v

/-- Go map lookup `m[k]`. -/
def mapLookup : List (GoStr × MemFixture) → GoStr → Option MemFixture
  | [], _ => none
  | (k', v') :: rest, k => if k' = k then some v' else mapLookup rest k

/-- The route table of `Server` (httpfixture.go:387-391). -/
structure Server where
  routes : List (GoStr × MemFixture)

/-- `NewServer` (httpfixture.go:394-403): insert each fixture under
`routesKey(f.Method(), f.Route())`; a later fixture with the same key
replaces the earlier one (Go map assignment). -/
def NewServer (fixtures : List MemFixture) : Server :=
  { routes := fixtures.foldl
      (fun m f => mapInsert m (routesKey f.base.method f.base.route) f) [] }

/-- The `http.ResponseWriter` side of a request: headers, the status written
by `WriteHeader`, and the bytes copied to the wire. -/
structure RW where
  header : List (GoStr × List GoStr)
  status : Option Int
  body : GoBytes
deriving DecidableEq

/-- `Header().Set(k, v)`: replace all values of the key by the single value. -/
def headerSet (h : List (GoStr × List GoStr)) (k v : GoStr) :
    List (GoStr × List GoStr) :=
  match h with
  | [] => [(k, [v])]
  | (k', vs) :: rest =>
    if k' = k then (k, [v]) :: rest else (k', vs) :: headerSet rest k v

/-- `http.NotFound(rw, req)` = `http.Error(rw, "404 page not found", 404)`:
sets Content-Type and X-Content-Type-Options, writes status 404 and body
`"404 page not found\n"` (`fmt.Fprintln`). -/
def notFound (rw : RW) : RW :=
  { header := headerSet
      (headerSet rw.header (strL "Content-Type")
        (strL "text/plain; charset=utf-8"))
      (strL "X-Content-Type-Options") (strL "nosniff"),
    status := some 404,
    body := rw.body ++ strBytes "404 page not found\n" }

/-- Lines 445-455 of `Server.ServeHTTP`: the header loop
`for key, vals := range resp.Header { for _, v := range vals {
resp.Header.Add(key, v) } }` appends each key's captured values back onto
`resp.Header`'s own entry (the `ResponseWriter`'s headers are never
touched); then `rw.WriteHeader(resp.StatusCode)` and
`io.Copy(rw, resp.Body)` (an in-memory body copy never fails). Returns the
updated writer and the (self-mutated) response. -/
def copyRespToWire (rw : RW) (resp : Response) : RW × Response :=
  let resp2 := { resp with header := resp.header.map (fun kv => (kv.1, kv.2 ++ kv.2)) }
  ({ rw with status := some resp2.statusCode, body := rw.body ++ resp2.body },
   resp2)

/-- `Server.ServeHTTP` (httpfixture.go:430-457): nil URL is logged and failed;
a route-table miss answers with `http.NotFound`; otherwise the fixture runs
(`memFixture.Run` never returns nil in this revision) and its response is
copied to the wire. -/
def Server.ServeHTTP (s : Server) (t : TT) (rw : RW) (req : Request) :
    TT × RW :=
  match req.urlPath with
  | none => ({ failed := true, log := t.log ++ [strL "nil request URL"] }, rw)
  | some path =>
    match mapLookup s.routes (routesKey req.method path) with
    | none => (t, notFound rw)
    | some f =>
      match f.Run t req with
      | ((t2, _), resp) => (t2, (copyRespToWire rw resp).1)

/-- Result of draining an `io.Reader` (or the file behind `os.Open`):
either the bytes, or a read error. -/
inductive ReadResult where
  | ok (bytes : GoBytes)
  | err (msg : GoStr)

/-- `Reader` (httpfixture.go:268-277): `io.ReadAll` the source eagerly; on
error `panic(fmt.Errorf("error reading reader: %w", err))` — the panic is
embedded as `Except.error`; on success build the in-memory fixture. -/
def Reader (route method : GoStr) (responseCode : Int) (r : ReadResult)
    (opts : List FixtureOpt) : Except GoStr MemFixture :=
  match r with
  | .err e => .error (strL "error reading reader: " ++ e)
  | .ok b => .ok { body := b, base := base route method responseCode opts }

/-- `File` (httpfixture.go:257-264): `os.Open` the path; on error
`panic(fmt.Errorf("error reading file: %w", err))`; on success hand the
open file to `Reader`. `openRes` is the outcome of open-then-drain. -/
def File (route method : GoStr) (responseCode : Int)
    (openRes : Except GoStr ReadResult) (opts : List FixtureOpt) :
    Except GoStr MemFixture :=
  match openRes with
  | .error e => .error (strL "error reading file: " ++ e)
  | .ok rr => Reader route method responseCode rr opts

/-- Modelled from the spec: the prefix-scan dispatcher match predicate of
spec section 4.4, policy (b). The repository's later tests exercise it
("GetOK with subpath", "OK wildcard POST", `Seq`), but the `httpfixture.go`
revision implementing it is not among the sources, which carry only the
exact-key `ServeHTTP`. A fixture matches when its method is the wildcard
sentinel `*` or equals the request method exactly, and its registered route
is a prefix of the incoming path. -/
def fixtureMatches (method path : GoStr) (f : MemFixture) : Bool :=
  (f.base.method == strL "*" || f.base.method == method)
    && f.base.route.isPrefixOf path

/-- Modelled from the spec: the prefix-scan dispatcher of spec section 4.4,
policy (b) — "ordered linear scan selecting the first registered fixture
whose path is a prefix of the incoming path and whose method is an exact
match or wildcard"; first-registration-wins. The implementing revision is
missing from the sources (see `fixtureMatches`). -/
def dispatch (fixtures : List MemFixture) (method path : GoStr) :
    Option MemFixture :=
  fixtures.find? (fixtureMatches method path)

/-- Modelled from the spec: the Sequential (`Seq`) fixture of spec section 3 —
"holds an ordered sequence of sub-Fixtures and a cursor ... updated once per
invocation". Its source is missing from the repository snapshot (only the
`TestSeq` test is present). -/
structure SeqFixture where
  subs : List MemFixture
  cursor : Nat

/-- Modelled from the spec: one invocation of a Sequential fixture — "Before
the cursor reaches the end, each call returns a different sub-Fixture's
output and advances the cursor; once exhausted, the last sub-Fixture's
output is returned for every subsequent call, indefinitely." Returns the
updated fixture and the selected sub-fixture. -/
def seqStep (sf : SeqFixture) : SeqFixture × Option MemFixture :=
  if h : sf.cursor < sf.subs.length then
    ({ sf with cursor := sf.cursor + 1 }, some (sf.subs.get ⟨sf.cursor, h⟩))
  else
    (sf, sf.subs.getLast?)

/-- The state of a Sequential fixture after `n` invocations. -/
def seqState (sf : SeqFixture) : Nat → SeqFixture
  | 0 => sf
  | n + 1 => (seqStep (seqState sf n)).1

/-- The body returned by invocation `n + 1` (zero-indexed `n`) of a
Sequential fixture. -/
def seqBody (sf : SeqFixture) (n : Nat) : Option GoBytes :=
  (seqStep (seqState sf n)).2.map MemFixture.body

/-- Spec-side restatement of claim C7's collection rule: evaluate every
assertion in the descriptor's order (threading the request through each, as
the shared `*http.Request` does), keeping every failure message in order. -/
def failuresOf : List Assert → Request → List GoStr
  | [], _ => []
  | a :: rest, req =>
    match a req with
    | (req2, none) => failuresOf rest req2
    | (req2, some e) => e :: failuresOf rest req2

/-- The `GetOK("/path", "hello world")` fixture used by the repository's own
tests. -/
def pathFixture : MemFixture :=
  Bytes (strL "/path") (strL "GET") 200 (strBytes "hello world") []

/-- A fixture registered with the wildcard method sentinel `*`. -/
def starFixture : MemFixture :=
  Bytes (strL "/path") (strL "*") 200 (strBytes "hello world") []

/-- An assertion that fails on every request with a fixed message. -/
def alwaysFailAssert (msg : GoStr) : FixtureOpt := fun f =>
  { f with assertions := f.assertions ++ [(fun req => (req, some msg) : Assert)] }

/-- A fixture carrying two always-failing assertions. -/
def failingFixture : MemFixture :=
  Bytes (strL "/path") (strL "GET") 201 (strBytes "resp body")
    [alwaysFailAssert (strL "e1"), alwaysFailAssert (strL "e2")]

/-- A fresh `testing.T`: not failed, nothing logged. -/
def t0 : TT := { failed := false, log := [] }

/-- A fresh response writer: no headers, no status, nothing written. -/
def rw0 : RW := { header := [], status := none, body := [] }

/-- A GET request to `/path` with an empty body. -/
def reqPath : Request :=
  { method := strL "GET", urlPath := some (strL "/path"), header := [],
    body := [], contentLength := 0 }

/-- A GET request to `/other` with an empty body. -/
def reqOther : Request :=
  { method := strL "GET", urlPath := some (strL "/other"), header := [],
    body := [], contentLength := 0 }

/-- A GET request whose body is the single byte 0x61 ('a'), with
`ContentLength` 1 as `http.NewRequest` sets it for a one-byte buffer. -/
def reqBodyA : Request :=
  { method := strL "GET", urlPath := some (strL "/path"), header := [],
    body := [97], contentLength := 1 }

/-! ## Helper lemmas -/

/-- Unfolding of `memFixture.Run` as projections of `assertAll`. -/
theorem run_proj (s : MemFixture) (t : TT) (req : Request) :
    s.Run t req = (((assertAll s.base t req).1, (assertAll s.base t req).2),
      { s.base.response with body := s.body }) := by
  simp only [MemFixture.Run]

/-- The accumulator of the `assertAll` loop collects exactly the failures of
every assertion, in order, after whatever was already accumulated. -/
theorem assertLoop_eq_failuresOf (as : List Assert) :
    ∀ (req : Request) (errs : List GoStr),
      assertLoop as req errs
        = ((assertLoop as req []).1, errs ++ failuresOf as req) := by
  induction as with
  | nil => intro req errs; simp [assertLoop, failuresOf]
  | cons a rest ih =>
    intro req errs
    simp only [assertLoop, failuresOf]
    rcases h : a req with ⟨req2, e⟩
    cases e with
    | none => exact ih req2 errs
    | some m =>
      dsimp only
      rw [ih req2 (errs ++ [m]), ih req2 ([] ++ [m])]
      simp

/-- The failures collected by the `assertAll` loop started empty. -/
theorem assertLoop_nil_snd (as : List Assert) (req : Request) :
    (assertLoop as req []).2 = failuresOf as req := by
  rw [assertLoop_eq_failuresOf as req []]
  simp

/-- When some assertion fails, `assertAll` marks the test failed and logs the
joined diagnostic. -/
theorem assertAll_failed_eq (bf : BaseFixture) (t : TT) (req : Request)
    (h : failuresOf bf.assertions req ≠ []) :
    (assertAll bf t req).1
      = { failed := true,
          log := t.log ++ [strL "request failed assertions: "
                    ++ joinErrs (failuresOf bf.assertions req)] } := by
  simp only [assertAll]
  rcases hl : assertLoop bf.assertions req [] with ⟨req2, errs⟩
  have herrs : errs = failuresOf bf.assertions req := by
    have := assertLoop_nil_snd bf.assertions req
    rw [hl] at this
    exact this
  subst herrs
  rw [if_neg]
  intro hempty
  exact h (List.isEmpty_iff.mp hempty)

/-- A list is a (Bool-valued) prefix of itself followed by anything. -/
theorem isPrefixOf_self_append (l t : GoStr) : l.isPrefixOf (l ++ t) = true := by
  induction l with
  | nil => simp [List.isPrefixOf]
  | cons c rest ih => simp [List.isPrefixOf, ih]

/-! ## Claim theorems -/

/-- C8: `standardizePath` maps the empty string to "/", prepends '/' when
missing, returns paths already starting with '/' unchanged; every result
starts with '/', and the function is idempotent. -/
theorem standardizePath_normalizes :
    (standardizePath [] = ['/'])
    ∧ (∀ p : GoStr, (standardizePath p).head? = some '/')
    ∧ (∀ p : GoStr, p.head? = some '/' → standardizePath p = p)
    ∧ (∀ p : GoStr, p ≠ [] → p.head? ≠ some '/' → standardizePath p = '/' :: p)
    ∧ (∀ p : GoStr, standardizePath (standardizePath p) = standardizePath p) := by
  refine ⟨rfl, ?_, ?_, ?_, ?_⟩
  · intro p
    cases p with
    | nil => rfl
    | cons c rest =>
      by_cases h : c = '/'
      · simp [standardizePath, h]
      · simp [standardizePath, h]
  · intro p hp
    cases p with
    | nil => simp at hp
    | cons c rest =>
      simp only [List.head?_cons, Option.some.injEq] at hp
      simp [standardizePath, hp]
  · intro p hne hp
    cases p with
    | nil => exact absurd rfl hne
    | cons c rest =>
      have hc : ¬c = '/' := by
        intro h
        exact hp (by simp [h])
      simp [standardizePath, hc]
  · intro p
    cases p with
    | nil => rfl
    | cons c rest =>
      by_cases h : c = '/'
      · simp [standardizePath, h]
      · simp [standardizePath, h]

/-- C8 witness: a path already starting with '/' is unchanged. -/
theorem standardizePath_normalizes_witness :
    standardizePath (strL "/a") = strL "/a" :=
  standardizePath_normalizes.2.2.1 (strL "/a") (by decide)

/-- C4 (code bug): at the failing input — a request whose body is the single
byte 0x61 with `ContentLength` 1 — the `AssertBodyContainsBytes` check
passes, yet the replayed request body is a zero byte followed by the
original byte, not the original byte sequence: `bytes.NewBuffer(make([]byte,
req.ContentLength))` pre-fills the replacement buffer with `ContentLength`
zero bytes before the tee appends the real body. -/
theorem assertBodyContains_replay_divergence :
    ((assertBodyContainsBytesCheck [97] reqBodyA).2 = none)
    ∧ ((assertBodyContainsBytesCheck [97] reqBodyA).1.body = [0, 97])
    ∧ ((assertBodyContainsBytesCheck [97] reqBodyA).1.body ≠ reqBodyA.body) := by
  decide

/-- C10: the header loop of `Server.ServeHTTP` adds each header value back
into the fixture response's own header map, never onto the
`ResponseWriter`; the wire headers are unchanged and independent of
whatever headers the fixture response carries, while the response's own
map has every value list doubled. -/
theorem serve_header_copy_self_directed :
    (∀ (rw : RW) (resp : Response), (copyRespToWire rw resp).1.header = rw.header)
    ∧ (∀ (rw : RW) (resp : Response) (h1 h2 : List (GoStr × List GoStr)),
        (copyRespToWire rw { resp with header := h1 }).1
          = (copyRespToWire rw { resp with header := h2 }).1)
    ∧ (∀ (rw : RW) (resp : Response),
        (copyRespToWire rw resp).2.header
          = resp.header.map (fun kv => (kv.1, kv.2 ++ kv.2)))
    ∧ (∀ (s : Server) (t : TT) (rw : RW) (req : Request) (path : GoStr)
          (f : MemFixture),
        req.urlPath = some path →
        mapLookup s.routes (routesKey req.method path) = some f →
        (s.ServeHTTP t rw req).2.header = rw.header) := by
  refine ⟨fun rw resp => rfl, fun rw resp h1 h2 => rfl, fun rw resp => rfl, ?_⟩
  intro s t rw req path f hurl hf
  simp only [Server.ServeHTTP, hurl, hf]
  rcases hr : f.Run t req with ⟨⟨t2, req2⟩, resp⟩
  rfl

/-- C10 witness: serving a matched request leaves the writer's headers
untouched. -/
theorem serve_header_copy_self_directed_witness :
    ((NewServer [pathFixture]).ServeHTTP t0 rw0 reqPath).2.header = rw0.header :=
  serve_header_copy_self_directed.2.2.2 (NewServer [pathFixture]) t0 rw0 reqPath
    (strL "/path") pathFixture rfl rfl

/-- C7: the assertion phase evaluates every assertion in list order with no
short-circuit — the collected failure list is exactly the failures of all
assertions in order — and the reported diagnostic is the aggregate
(`errors.Join`) of all individual failures. -/
theorem assertAll_runs_every_assertion :
    (∀ (as : List Assert) (req : Request),
        (assertLoop as req []).2 = failuresOf as req)
    ∧ (∀ (bf : BaseFixture) (t : TT) (req : Request),
        failuresOf bf.assertions req ≠ [] →
        (assertAll bf t req).1
          = { failed := true,
              log := t.log ++ [strL "request failed assertions: "
                        ++ joinErrs (failuresOf bf.assertions req)] }) :=
  ⟨assertLoop_nil_snd, assertAll_failed_eq⟩

/-- C7 witness: a fixture with two always-failing assertions reports both
failures, joined, in order. -/
theorem assertAll_runs_every_assertion_witness :
    (assertAll failingFixture.base t0 reqPath).1
      = { failed := true,
          log := t0.log ++ [strL "request failed assertions: "
                    ++ joinErrs (failuresOf failingFixture.base.assertions reqPath)] } :=
  assertAll_runs_every_assertion.2 failingFixture.base t0 reqPath (by decide)

/-- C3: when a request fails one or more assertions, `Run` logs the
diagnostic and marks the test failed, yet still returns the configured
response: its status code and body equal the configured ones, and the
returned response is identical to the one returned for any other request,
in particular one passing all assertions. -/
theorem run_failure_still_returns_configured_response
    (s : MemFixture) (t : TT) (req : Request)
    (hfail : failuresOf s.base.assertions req ≠ []) :
    ((s.Run t req).1.1.failed = true)
    ∧ ((s.Run t req).1.1.log
        = t.log ++ [strL "request failed assertions: "
            ++ joinErrs (failuresOf s.base.assertions req)])
    ∧ ((s.Run t req).2.statusCode = s.base.responseCode)
    ∧ ((s.Run t req).2.body = s.body)
    ∧ (∀ (t' : TT) (req' : Request), (s.Run t' req').2 = (s.Run t req).2) := by
  refine ⟨?_, ?_, ?_, ?_, ?_⟩
  · rw [run_proj, assertAll_failed_eq s.base t req hfail]
  · rw [run_proj, assertAll_failed_eq s.base t req hfail]
  · rw [run_proj]; rfl
  · rw [run_proj]
  · intro t' req'
    rw [run_proj, run_proj]

/-- C3 witness: a fixture with failing assertions marks the test failed and
still answers with its configured body. -/
theorem run_failure_still_returns_configured_response_witness :
    ((failingFixture.Run t0 reqPath).1.1.failed = true)
    ∧ ((failingFixture.Run t0 reqPath).2.body = strBytes "resp body") :=
  ⟨(run_failure_still_returns_configured_response failingFixture t0 reqPath
      (by decide)).1,
   ((run_failure_still_returns_configured_response failingFixture t0 reqPath
      (by decide)).2.2.2.1).trans rfl⟩

/-- C6 counterexample: on a dispatch miss the server answers 404, but the
body is the standard Go `"404 page not found\n"` line, not empty; no test
failure is recorded. This refutes the claim's "empty response body". -/
theorem serve_miss_body_not_empty :
    (((NewServer [pathFixture]).ServeHTTP t0 rw0 reqOther).2.status = some 404)
    ∧ (((NewServer [pathFixture]).ServeHTTP t0 rw0 reqOther).2.body
        = strBytes "404 page not found\n")
    ∧ (((NewServer [pathFixture]).ServeHTTP t0 rw0 reqOther).2.body ≠ [])
    ∧ (((NewServer [pathFixture]).ServeHTTP t0 rw0 reqOther).1 = t0) := by
  decide

/-- C6 amended: for every request whose (method, path) matches no registered
fixture, the server writes status 404 with the standard Go
`"404 page not found\n"` body appended to the wire, and records no test
failure. -/
theorem serve_miss_standard_notFound
    (s : Server) (t : TT) (rw : RW) (req : Request) (path : GoStr)
    (hurl : req.urlPath = some path)
    (hmiss : mapLookup s.routes (routesKey req.method path) = none) :
    ((s.ServeHTTP t rw req).2.status = some 404)
    ∧ ((s.ServeHTTP t rw req).2.body = rw.body ++ strBytes "404 page not found\n")
    ∧ ((s.ServeHTTP t rw req).1 = t) := by
  simp [Server.ServeHTTP, hurl, hmiss, notFound]

/-- C6 witness: the amended statement at a concrete miss. -/
theorem serve_miss_standard_notFound_witness :
    ((NewServer [pathFixture]).ServeHTTP t0 rw0 reqOther).1 = t0 :=
  (serve_miss_standard_notFound (NewServer [pathFixture]) t0 rw0 reqOther
    (strL "/other") rfl rfl).2.2

/-- C9: `Reader` and `File` read the body source fully at construction time;
an open or read failure aborts construction (the panic is the `.error`
branch, no fixture is produced), while a successful construction stores the
bytes, and serving any request afterwards returns exactly those bytes with
no per-request load (its `Run` consults no body source and always yields a
response). -/
theorem reader_file_eager_load :
    (∀ (route method : GoStr) (code : Int) (e : GoStr) (opts : List FixtureOpt),
        Reader route method code (.err e) opts
          = .error (strL "error reading reader: " ++ e))
    ∧ (∀ (route method : GoStr) (code : Int) (e : GoStr) (opts : List FixtureOpt),
        File route method code (.error e) opts
          = .error (strL "error reading file: " ++ e))
    ∧ (∀ (route method : GoStr) (code : Int) (b : GoBytes)
          (opts : List FixtureOpt) (f : MemFixture),
        Reader route method code (.ok b) opts = .ok f →
        (f.body = b ∧ ∀ (t : TT) (req : Request), (f.Run t req).2.body = b)) := by
  refine ⟨fun _ _ _ _ _ => rfl, fun _ _ _ _ _ => rfl, ?_⟩
  intro route method code b opts f hok
  simp only [Reader, Except.ok.injEq] at hok
  have hb : f.body = b := by rw [← hok]
  refine ⟨hb, ?_⟩
  intro t req
  rw [run_proj]
  exact hb

/-- C9 witness: a successful `Reader` construction stores the bytes it read,
and serving returns them. -/
theorem reader_file_eager_load_witness :
    ({ body := strBytes "x",
       base := base (strL "/p") (strL "GET") 200 [] } : MemFixture).body
      = strBytes "x" :=
  (reader_file_eager_load.2.2 (strL "/p") (strL "GET") 200 (strBytes "x") []
    { body := strBytes "x", base := base (strL "/p") (strL "GET") 200 [] }
    rfl).1

/-- C1 (against the spec-modelled prefix-scan dispatcher): a selected fixture
always method- and prefix-matches the request; the first-registered
matching fixture wins; a fixture whose method matches is selected for every
path extending its registered route; and concretely a fixture at `/path`
is selected for `/path` and `/path/subpath` but not `/other`. -/
theorem dispatch_prefix_first_registration_wins :
    (∀ (fs : List MemFixture) (f : MemFixture) (m p : GoStr),
        dispatch fs m p = some f → fixtureMatches m p f = true)
    ∧ (∀ (pre post : List MemFixture) (f : MemFixture) (m p : GoStr),
        (∀ g ∈ pre, fixtureMatches m p g = false) →
        fixtureMatches m p f = true →
        dispatch (pre ++ f :: post) m p = some f)
    ∧ (∀ (f : MemFixture) (m sub : GoStr), f.base.method = m →
        dispatch [f] m (f.base.route ++ sub) = some f)
    ∧ (dispatch [pathFixture] (strL "GET") (strL "/path") = some pathFixture)
    ∧ (dispatch [pathFixture] (strL "GET") (strL "/path/subpath")
        = some pathFixture)
    ∧ (dispatch [pathFixture] (strL "GET") (strL "/other") = none) := by
  refine ⟨?_, ?_, ?_, rfl, rfl, rfl⟩
  · intro fs f m p h
    exact List.find?_some h
  · intro pre post f m p hpre hf
    induction pre with
    | nil => exact List.find?_cons_of_pos post hf
    | cons g pre ih =>
      have hg : ¬ fixtureMatches m p g = true := by
        rw [hpre g (List.mem_cons_self g pre)]
        simp
      rw [List.cons_append, dispatch, List.find?_cons_of_neg _ hg]
      exact ih (fun g' hg' => hpre g' (List.mem_cons_of_mem g hg'))
  · intro f m sub hm
    have hpred : fixtureMatches m (f.base.route ++ sub) f = true := by
      simp [fixtureMatches, hm, isPrefixOf_self_append]
    exact List.find?_cons_of_pos [] hpred

/-- C1 witness: the first (and only) registered fixture at `/path` is
selected for the extended path `/path/sub`. -/
theorem dispatch_prefix_first_registration_wins_witness :
    dispatch [pathFixture] (strL "GET") (strL "/path" ++ strL "/sub")
      = some pathFixture :=
  dispatch_prefix_first_registration_wins.2.2.1 pathFixture (strL "GET")
    (strL "/sub") rfl

/-- C5 (against the spec-modelled prefix-scan dispatcher): a fixture
registered with the wildcard sentinel `*` is selected for a request of any
verb reaching its route, while a fixture with an explicit method is
selected only when the request method equals it exactly; concretely the
`*` fixture answers GET, POST and DELETE, and the explicit-GET fixture is
not selected by POST. -/
theorem dispatch_wildcard_matches_any_verb :
    (∀ (f : MemFixture) (m p : GoStr), f.base.method = strL "*" →
        f.base.route.isPrefixOf p = true → dispatch [f] m p = some f)
    ∧ (∀ (f : MemFixture) (m p : GoStr), dispatch [f] m p = some f →
        f.base.method ≠ strL "*" → f.base.method = m)
    ∧ (dispatch [starFixture] (strL "GET") (strL "/path") = some starFixture)
    ∧ (dispatch [starFixture] (strL "POST") (strL "/path") = some starFixture)
    ∧ (dispatch [starFixture] (strL "DELETE") (strL "/path")
        = some starFixture)
    ∧ (dispatch [pathFixture] (strL "POST") (strL "/path") = none) := by
  refine ⟨?_, ?_, rfl, rfl, rfl, rfl⟩
  · intro f m p hm hp
    have hpred : fixtureMatches m p f = true := by
      simp [fixtureMatches, hm, hp]
    exact List.find?_cons_of_pos [] hpred
  · intro f m p h hne
    have hpred : fixtureMatches m p f = true := List.find?_some h
    simp only [fixtureMatches, Bool.and_eq_true, Bool.or_eq_true,
      beq_iff_eq] at hpred
    rcases hpred.1 with hstar | hmeq
    · exact absurd hstar hne
    · exact hmeq

/-- C5 witness: the wildcard fixture is selected for an arbitrary verb. -/
theorem dispatch_wildcard_matches_any_verb_witness :
    dispatch [starFixture] (strL "PATCH") (strL "/path/x") = some starFixture :=
  dispatch_wildcard_matches_any_verb.1 starFixture (strL "PATCH")
    (strL "/path/x") rfl (by decide)

/-- After `n` invocations from a fresh cursor, a Sequential fixture's
sub-fixtures are unchanged and its cursor is `min n` (number of subs). -/
theorem seqState_cursor (subs : List MemFixture) (n : Nat) :
    seqState ⟨subs, 0⟩ n = ⟨subs, min n subs.length⟩ := by
  induction n with
  | zero => simp [seqState]
  | succ n ih =>
    rw [seqState, ih]
    rcases Nat.lt_or_ge n subs.length with h | h
    · have h1 : min n subs.length = n := Nat.min_eq_left (Nat.le_of_lt h)
      have h2 : min (n + 1) subs.length = n + 1 := Nat.min_eq_left h
      rw [h1, h2]
      simp only [seqStep]
      rw [dif_pos h]
    · have h1 : min n subs.length = subs.length := Nat.min_eq_right h
      have h2 : min (n + 1) subs.length = subs.length :=
        Nat.min_eq_right (Nat.le_succ_of_le h)
      rw [h1, h2]
      simp only [seqStep]
      rw [dif_neg (lt_irrefl subs.length)]

/-- C2 (against the spec-modelled Sequential fixture): starting from cursor
0, invocation `n + 1` returns the body of sub-fixture `n` (registration
order) while `n` is below the number of sub-fixtures, and every invocation
from the `N`-th on returns the last sub-fixture's body, indefinitely. -/
theorem seq_returns_bodies_in_order_then_last
    (subs : List MemFixture) (n : Nat) :
    (∀ h : n < subs.length,
        seqBody ⟨subs, 0⟩ n = some (subs.get ⟨n, h⟩).body)
    ∧ (∀ h : subs ≠ [], subs.length ≤ n →
        seqBody ⟨subs, 0⟩ n = some ((subs.getLast h).body)) := by
  constructor
  · intro h
    have h1 : min n subs.length = n := Nat.min_eq_left (Nat.le_of_lt h)
    simp only [seqBody, seqState_cursor, h1, seqStep]
    rw [dif_pos h]
    simp [seqState_cursor]
  · intro hne h
    have h1 : min n subs.length = subs.length := Nat.min_eq_right h
    simp only [seqBody, seqState_cursor, h1, seqStep]
    rw [dif_neg (lt_irrefl subs.length)]
    simp [List.getLast?_eq_getLast subs hne]

/-- The four sub-fixtures of the repository's `TestSeq` scenario. -/
def seqSubs : List MemFixture :=
  [Bytes [] (strL "GET") 200 (strBytes "body1") [],
   Bytes [] (strL "GET") 200 (strBytes "body2") [],
   Bytes [] (strL "GET") 200 (strBytes "body3") [],
   Bytes [] (strL "GET") 200 (strBytes "body4") []]

/-- C2 witness: with four sub-fixtures, the second invocation returns
`body2` and the seventh still returns `body4`. -/
theorem seq_returns_bodies_in_order_then_last_witness :
    (seqBody ⟨seqSubs, 0⟩ 1 = some (strBytes "body2"))
    ∧ (seqBody ⟨seqSubs, 0⟩ 6 = some (strBytes "body4")) :=
  ⟨((seq_returns_bodies_in_order_then_last seqSubs 1).1 (by decide)).trans rfl,
   ((seq_returns_bodies_in_order_then_last seqSubs 6).2
      (List.cons_ne_nil _ _) (by decide)).trans rfl⟩

end Httpfixture
